import Mathlib

/-
Verification of the description-to-geometry translator in
src/xlink/src/components/desc.world.ts.

The translator turns a textual description of a molecular world (peptide
sequences plus cross-link clauses) into Residue / Socket / Ball primitives,
registering each with an external scene collaborator and keeping a chain
registry and an internal ball list.

Modelling conventions:
  * JS strings are lists of characters (`Str`); the source only ever splits
    on single-character separators, modelled by `splitOnChar`.
  * JS numbers are idealised as rationals (positions) and naturals (indices).
  * The external identifier service (nanoid) is modelled by a fresh-number
    counter threaded through the state.
  * The external scene collaborator (ThreeInterface) is fire-and-forget per
    the spec, so it is modelled as three registration lists in the state.
  * A thrown JS exception is modelled by `Except.error` carrying the state
    at the moment of the throw; `Except.ok` is normal return.
-/

namespace XLink

/-- A 3D point, modelling THREE.Vector3 as used by the translator. -/
structure Vec3 where
  x : ℚ
  y : ℚ
  z : ℚ
deriving DecidableEq, Repr

/-- A rigid transform as the translator produces it: a translation part plus
a flag recording whether the 90-degree rotation about the z axis was
composed onto it (the only rotation the source ever applies). -/
structure Transform where
  pos : Vec3
  rotZ90 : Bool
deriving DecidableEq, Repr

/-- Modelled from the spec: the geometric constants live in
src/components/constants.ts, which is not part of this snapshot.  The spec
fixes the residue radius, socket radius, socket length and ball radius as
fixed geometric constants for the system's lifetime, and its layout argument
(spacing guarantees no overlap) presupposes that they are positive. -/
structure Consts where
  residueRadius : ℚ
  socketRadius : ℚ
  socketLength : ℚ
  ballRadius : ℚ
  residueRadius_pos : 0 < residueRadius
  socketRadius_pos : 0 < socketRadius
  socketLength_pos : 0 < socketLength
  ballRadius_pos : 0 < ballRadius

/-- A character list stands for a JS string. -/
abbrev Str := List Char

/-- One monomer unit: id, single-character symbol, radius, position. -/
structure Residue where
  id : Nat
  name : Str
  radius : ℚ
  pos : Vec3
deriving DecidableEq, Repr

/-- A directional attachment point anchored to one residue. -/
structure Socket where
  id : Nat
  residueId : Nat
  radius : ℚ
  length : ℚ
  matrix : Transform
  isBond : Bool
deriving DecidableEq, Repr

/-- A joint connecting exactly two sockets. -/
structure Ball where
  id : Nat
  socket1Id : Nat
  socket2Id : Nat
  radius : ℚ
  matrix : Transform
deriving DecidableEq, Repr

/-- JS String.prototype.split with a single-character separator:
splitting the empty string yields one empty piece, and separators at the
ends yield empty pieces, exactly as in JS. -/
def splitOnChar (sep : Char) : Str → List Str
  | [] => [[]]
  | c :: rest =>
      match splitOnChar sep rest with
      | [] => if c = sep then [[], []] else [[c]]
      | h :: t => if c = sep then [] :: h :: t else (c :: h) :: t

/-- Modelled from the spec: getAlphaOnly lives in src/components/common.ts,
which is not part of this snapshot.  The spec defines the expected symbol of
a cross-link token as its alphabetic prefix, empty when absent. -/
def getAlphaOnly (s : Str) : Str := s.takeWhile Char.isAlpha

/-- The first maximal digit run of a string, modelling
s.match(/(\d+)/): none when the string has no digit. -/
def firstDigitRun : Str → Option Str
  | [] => none
  | c :: rest =>
      if c.isDigit then some (c :: rest.takeWhile Char.isDigit)
      else firstDigitRun rest

/-- Decimal value of a digit run, modelling parseInt on a digit string. -/
def parseNat (s : Str) : Nat :=
  s.foldl (fun n c => n * 10 + (c.toNat - 48)) 0

/-- JS array indexing with a possibly negative index: arr[i] is undefined
for i < 0 and for i beyond the end. -/
def jsIndex (l : List Residue) (i : Int) : Option Residue :=
  if 0 ≤ i then l.get? i.toNat else none

/-- Lookup in the chain registry, modelling Map.prototype.get. -/
def mapGet : List (Str × List Residue) → Str → Option (List Residue)
  | [], _ => none
  | (k1, v1) :: rest, k => if k1 = k then some v1 else mapGet rest k

/-- Insert-or-replace in the chain registry, modelling Map.prototype.set:
an existing key keeps its position and gets the new value, a new key is
appended. -/
def mapSet : List (Str × List Residue) → Str → List Residue → List (Str × List Residue)
  | [], k, v => [(k, v)]
  | (k1, v1) :: rest, k, v =>
      if k1 = k then (k, v) :: rest else (k1, v1) :: mapSet rest k v

/-- The translator state: the chain registry and internal ball list of
DescWorld, the fresh-id counter standing for the identifier service, and
the three registration lists standing for the scene collaborator. -/
structure World where
  peptides : List (Str × List Residue)
  balls : List Ball
  nextId : Nat
  regResidues : List Residue
  regSockets : List Socket
  regBalls : List Ball
deriving DecidableEq, Repr

/-- A freshly constructed DescWorld. -/
def initWorld : World :=
  ⟨[], [], 0, [], [], []⟩

/-- The residue created at 0-based index i of a chain laid out from start:
x is offset by (socketLength + residueRadius + ballRadius) * 2 * i, y and z
stay those of start (startPos.clone().setX(residueX)). -/
def mkResidue (C : Consts) (startPos : Vec3) (i : Nat) (c : Char) (id : Nat) : Residue :=
  ⟨id, [c], C.residueRadius,
    { startPos with
        x := startPos.x + (C.socketLength + C.residueRadius + C.ballRadius) * 2 * i }⟩

/-- The inter-residue connection of addPeptide (lines 92-103): two sockets
anchored to the previous and current residues, rotated 90 degrees about z,
then one ball joining them, each registered in creation order and the ball
also appended to the internal ball list. -/
def connect (C : Consts) (startPos : Vec3) (prevR cur : Residue) (w : World) : World :=
  let socket1X := prevR.pos.x + C.residueRadius + C.socketLength / 2
  let socket1 : Socket :=
    ⟨w.nextId, prevR.id, C.socketRadius, C.socketLength,
      ⟨{ startPos with x := socket1X }, true⟩, false⟩
  let w1 : World :=
    { w with nextId := w.nextId + 1, regSockets := w.regSockets ++ [socket1] }
  let socket2X := socket1X + C.socketLength + C.ballRadius * 2
  let socket2 : Socket :=
    ⟨w1.nextId, cur.id, C.socketRadius, C.socketLength,
      ⟨{ startPos with x := socket2X }, true⟩, false⟩
  let w2 : World :=
    { w1 with nextId := w1.nextId + 1, regSockets := w1.regSockets ++ [socket2] }
  let ballX := socket1X + C.socketLength / 2 + C.ballRadius
  let ball : Ball :=
    ⟨w2.nextId, socket1.id, socket2.id, C.ballRadius,
      ⟨{ startPos with x := ballX }, false⟩⟩
  { w2 with
      nextId := w2.nextId + 1,
      regBalls := w2.regBalls ++ [ball],
      balls := w2.balls ++ [ball] }

/-- The body of addPeptide's forEach loop: walks the remaining characters
with the current 0-based index and the previous residue, creating and
registering each residue and, from the second residue on, the connection
to its predecessor. -/
def buildLoop (C : Consts) (startPos : Vec3) :
    List Char → Nat → Option Residue → World × List Residue → World × List Residue
  | [], _, _, acc => acc
  | c :: cs, i, prev, (w, pep) =>
      let residue := mkResidue C startPos i c w.nextId
      let w1 : World :=
        { w with nextId := w.nextId + 1, regResidues := w.regResidues ++ [residue] }
      let w2 : World :=
        match prev with
        | none => w1
        | some p => connect C startPos p residue w1
      buildLoop C startPos cs (i + 1) (some residue) (w2, pep ++ [residue])

/-- DescWorld.addPeptide (lines 81-107): builds the chain from the sequence
and records it in the registry under the given name (Map.set, so a prior
chain of the same name is replaced). -/
def addPeptide (C : Consts) (w : World) (name : Str) (sequence : List Char)
    (startPos : Vec3) : World :=
  let r := buildLoop C startPos sequence 0 none (w, [])
  { r.1 with peptides := mapSet r.1.peptides name r.2 }

/-- The residue lookup of a cross-link endpoint (line 120):
this.peptides.get(chain)?.[num - 1], with the 1-based index num. -/
def resolveEndpoint (w : World) (chain : Str) (num : Nat) : Option Residue :=
  (mapGet w.peptides chain).bind fun pep => jsIndex pep ((num : Int) - 1)

/-- The placeholder transform of cross-link sockets and balls: the source
passes a shared scratch matrix (tempMatrix1) whose content is not derived
from the linked residues, so its value is not specified here beyond being
one fixed transform. -/
def placeholderT : Transform := ⟨⟨0, 0, 0⟩, false⟩

/-- Processing one endpoint of a cross-link clause (lines 116-121 and
122-127): split on the colon, take the chain name and token; a missing
token throws (getAlphaOnly / .match on undefined), a token without a digit
run throws (the non-null assertion on .match's result); otherwise the
residue is looked up and the clause continues only when the residue exists
and its name equals the token's alphabetic part. -/
def endpointResolve (w : World) (ep : Str) : Except Unit (Option Residue) :=
  match (splitOnChar ':' ep).get? 1 with
  | none => Except.error ()
  | some tok =>
      match firstDigitRun tok with
      | none => Except.error ()
      | some ds =>
          match resolveEndpoint w ((splitOnChar ':' ep).headD []) (parseNat ds) with
          | some r =>
              if r.name = getAlphaOnly tok then Except.ok (some r)
              else Except.ok none
          | none => Except.ok none

/-- The primitive creation of a successful cross-link clause (lines
129-135): two sockets anchored to the resolved residues and one ball
joining them, registered in creation order, the ball also appended to the
internal ball list. -/
def createCrossLink (C : Consts) (w : World) (r1 r2 : Residue) : World :=
  let socket1 : Socket :=
    ⟨w.nextId, r1.id, C.socketRadius, C.socketLength, placeholderT, false⟩
  let w1 : World :=
    { w with nextId := w.nextId + 1, regSockets := w.regSockets ++ [socket1] }
  let socket2 : Socket :=
    ⟨w1.nextId, r2.id, C.socketRadius, C.socketLength, placeholderT, false⟩
  let w2 : World :=
    { w1 with nextId := w1.nextId + 1, regSockets := w1.regSockets ++ [socket2] }
  let ball : Ball :=
    ⟨w2.nextId, socket1.id, socket2.id, C.ballRadius, placeholderT⟩
  { w2 with
      nextId := w2.nextId + 1,
      regBalls := w2.regBalls ++ [ball],
      balls := w2.balls ++ [ball] }

/-- Processing one cross-link clause (lines 114-136).  The first endpoint
is fully parsed, resolved and validated before the second is even split
off: a validation miss on either endpoint skips the clause silently, a
parse failure throws, and a missing second endpoint throws at
acids[1].split.  An escaping exception carries the unchanged state, since
no primitive is created before both endpoints validate. -/
def processClause (C : Consts) (w : World) (clause : Str) : Except World World :=
  let acids := splitOnChar '-' clause
  match endpointResolve w (acids.headD []) with
  | Except.error _ => Except.error w
  | Except.ok none => Except.ok w
  | Except.ok (some r1) =>
      match acids.get? 1 with
      | none => Except.error w
      | some ep2 =>
          match endpointResolve w ep2 with
          | Except.error _ => Except.error w
          | Except.ok none => Except.ok w
          | Except.ok (some r2) => Except.ok (createCrossLink C w r1 r2)

/-- The forEach over the clauses of addCrossLinks: clauses are processed in
order; a clause that throws aborts the remaining clauses, with the state
reached so far carried in the error. -/
def addCrossLinksFold (C : Consts) : World → List Str → Except World World
  | w, [] => Except.ok w
  | w, cl :: cls =>
      match processClause C w cl with
      | Except.ok w1 => addCrossLinksFold C w1 cls
      | Except.error w1 => Except.error w1

/-- DescWorld.addCrossLinks (lines 109-137): split the specification on
semicolons and process each clause. -/
def addCrossLinks (C : Consts) (w : World) (spec : Str) : Except World World :=
  addCrossLinksFold C w (splitOnChar ';' spec)

/-- The state in which a call leaves the translator, whether it returned
normally or an exception escaped. -/
def exceptState : Except World World → World
  | Except.ok w => w
  | Except.error w => w

/-- The state of a call that returned normally, none if it threw. -/
def okState : Except World World → Option World
  | Except.ok w => some w
  | Except.error _ => none

/-- The position the layout engine assigns to the residue at 0-based
index n of a chain started at s. -/
def layoutPos (C : Consts) (s : Vec3) (n : Nat) : Vec3 :=
  ⟨s.x + (C.socketLength + C.residueRadius + C.ballRadius) * 2 * n, s.y, s.z⟩

/-- A fixed positive choice of the geometric constants, used to witness
the theorems at concrete inputs. -/
def C0 : Consts :=
  ⟨1, 1, 1, 1, by norm_num, by norm_num, by norm_num, by norm_num⟩

/-- Number of sockets the loop adds, as a function of the pending previous
residue and the number of remaining characters. -/
def socketsAdded : Option Residue → Nat → Nat
  | some _, n => 2 * n
  | none, n => 2 * (n - 1)

/-- Number of balls the loop adds. -/
def ballsAdded : Option Residue → Nat → Nat
  | some _, n => n
  | none, n => n - 1

/-- The world in which the loop continues after creating the residue of a
step: the residue is registered and the id counter advanced. -/
def stepWorld (C : Consts) (s : Vec3) (i : Nat) (c : Char) (w : World) : World :=
  { w with nextId := w.nextId + 1,
           regResidues := w.regResidues ++ [mkResidue C s i c w.nextId] }

/-- A world with a chain already registered under name A, used as the
concrete input of the last-write-wins witness. -/
def w8base : World := addPeptide C0 initWorld ['A'] ['C'] ⟨0, 0, 0⟩

/-- An id among the registered residues. -/
def hasResidueId (w : World) (n : Nat) : Prop := ∃ r ∈ w.regResidues, r.id = n

/-- An id among the registered sockets. -/
def hasSocketId (w : World) (n : Nat) : Prop := ∃ s ∈ w.regSockets, s.id = n

/-- An id among the registered balls. -/
def hasBallId (w : World) (n : Nat) : Prop := ∃ b ∈ w.regBalls, b.id = n

/-- The reference invariant: every registered ball names two registered
sockets, every registered socket is anchored to a registered residue, the
internal ball list only holds registered balls, and every residue of a
registered chain is a registered residue. -/
def WF (w : World) : Prop :=
  (∀ b ∈ w.regBalls, hasSocketId w b.socket1Id ∧ hasSocketId w b.socket2Id) ∧
  (∀ s ∈ w.regSockets, hasResidueId w s.residueId) ∧
  (∀ b ∈ w.balls, hasBallId w b.id) ∧
  (∀ p ∈ w.peptides, ∀ r ∈ p.2, hasResidueId w r.id)

instance (w : World) : Decidable (WF w) := by
  unfold WF hasSocketId hasResidueId hasBallId
  infer_instance

/-- A two-chain world for the reference-integrity witness. -/
def w7base : World := addPeptide C0 initWorld ['A'] ['C', 'D'] ⟨0, 0, 0⟩

/-- The cross-link clause of claim C1, written A:X5-B:Y3. -/
def c1Clause : Str := ['A', ':', 'X', '5', '-', 'B', ':', 'Y', '3']

/-- The state addCrossLinks leaves after the clause A:X5-B:Y3: the new link
exactly when chain A has a residue at 1-based index 5 named X and chain B a
residue at 1-based index 3 named Y, the unchanged state otherwise. -/
def c1Outcome (C : Consts) (w : World) : World :=
  match resolveEndpoint w ['A'] 5 with
  | none => w
  | some r1 =>
      if r1.name = ['X'] then
        match resolveEndpoint w ['B'] 3 with
        | none => w
        | some r2 =>
            if r2.name = ['Y'] then createCrossLink C w r1 r2 else w
      else w

/-- A world whose chain A has its fifth residue named X and whose chain B
has its third residue named Y, for the C1 witness. -/
def c1World : World :=
  addPeptide C0 (addPeptide C0 initWorld ['A'] ['G', 'G', 'G', 'G', 'X'] ⟨0, 0, 0⟩)
    ['B'] ['G', 'G', 'Y'] ⟨0, 20, 0⟩

/-- A world with one chain A = CD, over which the clause A:C1-A:D2 is a
valid cross-link. -/
def w2base : World := addPeptide C0 initWorld ['A'] ['C', 'D'] ⟨0, 0, 0⟩

/-- The specification X;A:C1-A:D2: an unparseable clause followed by a
valid clause. -/
def c2BadSpec : Str :=
  ['X', ';', 'A', ':', 'C', '1', '-', 'A', ':', 'D', '2']

/-- The valid clause A:C1-A:D2 alone. -/
def c2GoodClause : Str := ['A', ':', 'C', '1', '-', 'A', ':', 'D', '2']

/-- A validation-miss clause for the C2 witness: chain Q is not registered
in w2base. -/
def c2SkipClause : Str := ['Q', ':', 'C', '1', '-', 'Q', ':', 'C', '1']

/-- A world with chains A = C and B = G, so that in the clause A:C1-B:1 the
second endpoint names an existing residue (chain B, 1-based index 1) by
index alone. -/
def w5base : World :=
  addPeptide C0 (addPeptide C0 initWorld ['A'] ['C'] ⟨0, 0, 0⟩)
    ['B'] ['G'] ⟨0, 10, 0⟩

/-- The clause of claim C5 with a pure-digit second token. -/
def c5DigitClause : Str := ['A', ':', 'C', '1', '-', 'B', ':', '1']

/-- The same clause with the symbol spelled out. -/
def c5SymbolClause : Str := ['A', ':', 'C', '1', '-', 'B', ':', 'G', '1']

lemma mapGet_mapSet_self (m : List (Str × List Residue)) (k : Str) (v : List Residue) :
    mapGet (mapSet m k v) k = some v := by
  induction m with
  | nil => simp [mapSet, mapGet]
  | cons p rest ih =>
      obtain ⟨k1, v1⟩ := p
      by_cases h : k1 = k
      · simp [mapSet, mapGet, h]
      · simp [mapSet, mapGet, h, ih]

lemma mem_mapSet (m : List (Str × List Residue)) (k : Str) (v : List Residue)
    (p : Str × List Residue) (hp : p ∈ mapSet m k v) : p = (k, v) ∨ p ∈ m := by
  induction m with
  | nil => simpa [mapSet] using hp
  | cons q rest ih =>
      obtain ⟨k1, v1⟩ := q
      by_cases h : k1 = k
      · simp only [mapSet, if_pos h] at hp
        rcases List.mem_cons.mp hp with h1 | h1
        · exact Or.inl h1
        · exact Or.inr (List.mem_cons_of_mem _ h1)
      · simp only [mapSet, if_neg h] at hp
        rcases List.mem_cons.mp hp with h1 | h1
        · exact Or.inr (h1 ▸ List.mem_cons_self _ _)
        · rcases ih h1 with h2 | h2
          · exact Or.inl h2
          · exact Or.inr (List.mem_cons_of_mem _ h2)

lemma mapGet_mem (m : List (Str × List Residue)) (k : Str) (v : List Residue)
    (h : mapGet m k = some v) : (k, v) ∈ m := by
  induction m with
  | nil => simp [mapGet] at h
  | cons q rest ih =>
      obtain ⟨k1, v1⟩ := q
      by_cases hk : k1 = k
      · simp only [mapGet, if_pos hk] at h
        subst hk
        obtain rfl : v1 = v := Option.some.inj h
        exact List.mem_cons_self _ _
      · simp only [mapGet, if_neg hk] at h
        exact List.mem_cons_of_mem _ (ih h)

lemma buildLoop_nil (C : Consts) (s : Vec3) (i : Nat) (prev : Option Residue)
    (acc : World × List Residue) : buildLoop C s [] i prev acc = acc := rfl

lemma buildLoop_cons_none (C : Consts) (s : Vec3) (c : Char) (cs : List Char)
    (i : Nat) (w : World) (pep : List Residue) :
    buildLoop C s (c :: cs) i none (w, pep)
      = buildLoop C s cs (i + 1) (some (mkResidue C s i c w.nextId))
          (stepWorld C s i c w, pep ++ [mkResidue C s i c w.nextId]) := rfl

lemma buildLoop_cons_some (C : Consts) (s : Vec3) (c : Char) (cs : List Char)
    (i : Nat) (p : Residue) (w : World) (pep : List Residue) :
    buildLoop C s (c :: cs) i (some p) (w, pep)
      = buildLoop C s cs (i + 1) (some (mkResidue C s i c w.nextId))
          (connect C s p (mkResidue C s i c w.nextId) (stepWorld C s i c w),
            pep ++ [mkResidue C s i c w.nextId]) := rfl

lemma connect_fields (C : Consts) (s : Vec3) (p q : Residue) (w : World) :
    (connect C s p q w).regResidues = w.regResidues ∧
    (connect C s p q w).peptides = w.peptides ∧
    (connect C s p q w).regSockets.length = w.regSockets.length + 2 ∧
    (connect C s p q w).regBalls.length = w.regBalls.length + 1 ∧
    (connect C s p q w).balls.length = w.balls.length + 1 := by
  simp [connect]

lemma buildLoop_counts (C : Consts) (s : Vec3) (cs : List Char) :
    ∀ (i : Nat) (prev : Option Residue) (w : World) (pep : List Residue),
      ((buildLoop C s cs i prev (w, pep)).1).regResidues.length
          = w.regResidues.length + cs.length ∧
      ((buildLoop C s cs i prev (w, pep)).1).regSockets.length
          = w.regSockets.length + socketsAdded prev cs.length ∧
      ((buildLoop C s cs i prev (w, pep)).1).regBalls.length
          = w.regBalls.length + ballsAdded prev cs.length ∧
      ((buildLoop C s cs i prev (w, pep)).1).balls.length
          = w.balls.length + ballsAdded prev cs.length ∧
      ((buildLoop C s cs i prev (w, pep)).1).peptides = w.peptides := by
  induction cs with
  | nil =>
      intro i prev w pep
      cases prev <;> simp [buildLoop_nil, socketsAdded, ballsAdded]
  | cons c cs ih =>
      intro i prev w pep
      cases prev with
      | none =>
          rw [buildLoop_cons_none]
          obtain ⟨ha, hb, hc, hd, he⟩ :=
            ih (i + 1) (some (mkResidue C s i c w.nextId)) (stepWorld C s i c w)
              (pep ++ [mkResidue C s i c w.nextId])
          refine ⟨?_, ?_, ?_, ?_, ?_⟩
          · rw [ha]
            simp only [stepWorld, List.length_append, List.length_cons,
              List.length_nil, socketsAdded, ballsAdded]
            omega
          · rw [hb]
            simp only [stepWorld, socketsAdded, ballsAdded, List.length_cons]
            omega
          · rw [hc]
            simp only [stepWorld, socketsAdded, ballsAdded, List.length_cons]
            omega
          · rw [hd]
            simp only [stepWorld, socketsAdded, ballsAdded, List.length_cons]
            omega
          · rw [he]
            rfl
      | some p =>
          rw [buildLoop_cons_some]
          obtain ⟨ha, hb, hc, hd, he⟩ :=
            ih (i + 1) (some (mkResidue C s i c w.nextId))
              (connect C s p (mkResidue C s i c w.nextId) (stepWorld C s i c w))
              (pep ++ [mkResidue C s i c w.nextId])
          obtain ⟨ka, kb, kc, kd, ke⟩ :=
            connect_fields C s p (mkResidue C s i c w.nextId) (stepWorld C s i c w)
          refine ⟨?_, ?_, ?_, ?_, ?_⟩
          · rw [ha, ka]
            simp only [stepWorld, List.length_append, List.length_cons,
              List.length_nil, socketsAdded, ballsAdded]
            omega
          · rw [hb, kc]
            simp only [stepWorld, socketsAdded, ballsAdded, List.length_cons]
            omega
          · rw [hc, kd]
            simp only [stepWorld, socketsAdded, ballsAdded, List.length_cons]
            omega
          · rw [hd, ke]
            simp only [stepWorld, socketsAdded, ballsAdded, List.length_cons]
            omega
          · rw [he, kb]
            rfl

lemma range_map_layout (C : Consts) (s : Vec3) (i n : Nat) :
    (List.range (n + 1)).map (fun j => layoutPos C s (i + j))
      = layoutPos C s i :: (List.range n).map (fun j => layoutPos C s (i + 1 + j)) := by
  rw [List.range_succ_eq_map, List.map_cons, List.map_map]
  refine congrArg₂ _ (by simp) ?_
  refine List.map_congr_left ?_
  intro a _
  simp only [Function.comp]
  congr 1
  omega

lemma buildLoop_pep_maps (C : Consts) (s : Vec3) (cs : List Char) :
    ∀ (i : Nat) (prev : Option Residue) (w : World) (pep : List Residue),
      ((buildLoop C s cs i prev (w, pep)).2).map (fun r => r.name)
          = pep.map (fun r => r.name) ++ cs.map (fun c => [c]) ∧
      ((buildLoop C s cs i prev (w, pep)).2).map (fun r => r.pos)
          = pep.map (fun r => r.pos)
            ++ (List.range cs.length).map (fun j => layoutPos C s (i + j)) := by
  induction cs with
  | nil =>
      intro i prev w pep
      simp [buildLoop_nil]
  | cons c cs ih =>
      intro i prev w pep
      have hname : (mkResidue C s i c w.nextId).name = [c] := rfl
      have hpos : (mkResidue C s i c w.nextId).pos = layoutPos C s i := by
        simp [mkResidue, layoutPos]
      cases prev with
      | none =>
          rw [buildLoop_cons_none]
          obtain ⟨h1, h2⟩ :=
            ih (i + 1) (some (mkResidue C s i c w.nextId)) (stepWorld C s i c w)
              (pep ++ [mkResidue C s i c w.nextId])
          refine ⟨?_, ?_⟩
          · rw [h1]
            simp [hname]
          · rw [h2]
            simp only [List.length_cons, range_map_layout, List.map_append,
              List.map_cons, List.map_nil, List.append_assoc, List.singleton_append,
              hpos, List.cons_append, List.nil_append]
      | some p =>
          rw [buildLoop_cons_some]
          obtain ⟨h1, h2⟩ :=
            ih (i + 1) (some (mkResidue C s i c w.nextId))
              (connect C s p (mkResidue C s i c w.nextId) (stepWorld C s i c w))
              (pep ++ [mkResidue C s i c w.nextId])
          refine ⟨?_, ?_⟩
          · rw [h1]
            simp [hname]
          · rw [h2]
            simp only [List.length_cons, range_map_layout, List.map_append,
              List.map_cons, List.map_nil, List.append_assoc, List.singleton_append,
              hpos, List.cons_append, List.nil_append]

lemma addPeptide_spec (C : Consts) (w : World) (name : Str) (seq : List Char)
    (start : Vec3) :
    mapGet (addPeptide C w name seq start).peptides name
        = some (buildLoop C start seq 0 none (w, [])).2 ∧
    (addPeptide C w name seq start).regResidues.length
        = w.regResidues.length + seq.length ∧
    (addPeptide C w name seq start).regSockets.length
        = w.regSockets.length + 2 * (seq.length - 1) ∧
    (addPeptide C w name seq start).regBalls.length
        = w.regBalls.length + (seq.length - 1) ∧
    (addPeptide C w name seq start).balls.length
        = w.balls.length + (seq.length - 1) := by
  obtain ⟨ha, hb, hc, hd, _⟩ := buildLoop_counts C start seq 0 none w []
  simp only [addPeptide]
  exact ⟨mapGet_mapSet_self _ _ _,
    by simpa [socketsAdded, ballsAdded] using ha,
    by simpa [socketsAdded, ballsAdded] using hb,
    by simpa [socketsAdded, ballsAdded] using hc,
    by simpa [socketsAdded, ballsAdded] using hd⟩

lemma addPeptide_pep_maps (C : Consts) (w : World) (name : Str) (seq : List Char)
    (start : Vec3) :
    ((buildLoop C start seq 0 none (w, [])).2).map (fun r => r.name)
        = seq.map (fun c => [c]) ∧
    ((buildLoop C start seq 0 none (w, [])).2).map (fun r => r.pos)
        = (List.range seq.length).map (fun j => layoutPos C start j) := by
  obtain ⟨h1, h2⟩ := buildLoop_pep_maps C start seq 0 none w []
  refine ⟨by simpa using h1, ?_⟩
  rw [h2]
  simp

lemma chain'_map_range {α : Type} (f : Nat → α) (R : α → α → Prop) (n : Nat)
    (h : ∀ m, R (f m) (f (m + 1))) : List.Chain' R ((List.range n).map f) := by
  rw [List.chain'_map]
  cases n with
  | zero => simp
  | succ n =>
      rw [List.chain'_range_succ]
      intro m _
      exact h m

/-- Claim C3: for every name, start position and sequence of length n,
addPeptide produces exactly n residues (the chain registered under the name
has n entries and n residues are registered with the collaborator), exactly
2*(n-1) sockets and n-1 balls (with natural subtraction, so for n = 0 zero
residues, sockets and balls result, and no error is possible since
addPeptide is total). -/
theorem c3_addPeptide_counts (C : Consts) (w : World) (name : Str)
    (seq : List Char) (start : Vec3) :
    ∃ pep, mapGet (addPeptide C w name seq start).peptides name = some pep ∧
      pep.length = seq.length ∧
      (addPeptide C w name seq start).regResidues.length
          = w.regResidues.length + seq.length ∧
      (addPeptide C w name seq start).regSockets.length
          = w.regSockets.length + 2 * (seq.length - 1) ∧
      (addPeptide C w name seq start).regBalls.length
          = w.regBalls.length + (seq.length - 1) ∧
      (addPeptide C w name seq start).balls.length
          = w.balls.length + (seq.length - 1) := by
  obtain ⟨hmap, ha, hb, hc, hd⟩ := addPeptide_spec C w name seq start
  obtain ⟨hn, _⟩ := addPeptide_pep_maps C w name seq start
  refine ⟨_, hmap, ?_, ha, hb, hc, hd⟩
  have := congrArg List.length hn
  simpa using this

/-- Claim C4: the residue at 0-based index i of a chain built by addPeptide
sits at x = start.x + (socketLength + residueRadius + ballRadius) * 2 * i
with y and z equal to those of the start point, and consecutive residue
x-coordinates are strictly increasing with constant spacing
2 * (socketLength + residueRadius + ballRadius). -/
theorem c4_residue_positions (C : Consts) (w : World) (name : Str)
    (seq : List Char) (start : Vec3) :
    ∃ pep, mapGet (addPeptide C w name seq start).peptides name = some pep ∧
      pep.map (fun r => r.pos)
          = (List.range seq.length).map (fun j =>
              ⟨start.x + (C.socketLength + C.residueRadius + C.ballRadius) * 2 * j,
                start.y, start.z⟩) ∧
      List.Chain'
        (fun a b => a < b ∧
          b = a + 2 * (C.socketLength + C.residueRadius + C.ballRadius))
        (pep.map (fun r => r.pos.x)) := by
  obtain ⟨hmap, _, _, _, _⟩ := addPeptide_spec C w name seq start
  obtain ⟨_, hp⟩ := addPeptide_pep_maps C w name seq start
  refine ⟨_, hmap, hp, ?_⟩
  have hx : ((buildLoop C start seq 0 none (w, [])).2).map (fun r => r.pos.x)
      = (List.range seq.length).map (fun j => (layoutPos C start j).x) := by
    have := congrArg (List.map (fun v : Vec3 => v.x)) hp
    simpa [List.map_map, Function.comp] using this
  rw [hx]
  have hk : 0 < C.socketLength + C.residueRadius + C.ballRadius :=
    add_pos (add_pos C.socketLength_pos C.residueRadius_pos) C.ballRadius_pos
  refine chain'_map_range _ _ _ ?_
  intro m
  constructor
  · simp only [layoutPos]
    push_cast
    nlinarith [hk]
  · simp only [layoutPos]
    push_cast
    ring

/-- Claim C9: the chain built by addPeptide from sequence S carries, at
1-based index k, the symbol S[k-1]: the residue names, in order, are
exactly the sequence symbols, and cross-link resolution at 1-based index
k+1 returns the chain entry at 0-based index k. -/
theorem c9_residue_order (C : Consts) (w : World) (name : Str)
    (seq : List Char) (start : Vec3) :
    ∃ pep, mapGet (addPeptide C w name seq start).peptides name = some pep ∧
      pep.map (fun r => r.name) = seq.map (fun c => [c]) ∧
      ∀ k : Nat, resolveEndpoint (addPeptide C w name seq start) name (k + 1)
          = pep.get? k := by
  obtain ⟨hmap, _, _, _, _⟩ := addPeptide_spec C w name seq start
  obtain ⟨hn, _⟩ := addPeptide_pep_maps C w name seq start
  refine ⟨_, hmap, hn, ?_⟩
  intro k
  rw [resolveEndpoint, hmap]
  have hi : ((k + 1 : Nat) : Int) - 1 = (k : Int) := by push_cast; ring
  simp [jsIndex, hi]

/-- Claim C8: calling addPeptide with a chain name that is already present
in the registry makes subsequent lookups under that name return the newly
built chain (last write wins): the lookup yields exactly one chain, of the
new sequence's length and symbols. -/
theorem c8_last_write_wins (C : Consts) (w : World) (name : Str)
    (seq : List Char) (start : Vec3) (old : List Residue)
    (hold : mapGet w.peptides name = some old) :
    ∃ pep, mapGet (addPeptide C w name seq start).peptides name = some pep ∧
      pep.length = seq.length ∧
      pep.map (fun r => r.name) = seq.map (fun c => [c]) := by
  obtain ⟨hmap, _, _, _, _⟩ := addPeptide_spec C w name seq start
  obtain ⟨hn, _⟩ := addPeptide_pep_maps C w name seq start
  refine ⟨_, hmap, ?_, hn⟩
  have := congrArg List.length hn
  simpa using this

/-- Witness for c8_last_write_wins: rebuilding chain A over w8base with a
two-residue sequence leaves lookups seeing only the new two-residue chain. -/
theorem c8_last_write_wins_witness :
    ∃ pep, mapGet (addPeptide C0 w8base ['A'] ['G', 'G'] ⟨0, 0, 0⟩).peptides ['A']
        = some pep ∧
      pep.length = 2 ∧
      pep.map (fun r => r.name) = [['G'], ['G']] := by
  have h := c8_last_write_wins C0 w8base ['A'] ['G', 'G'] ⟨0, 0, 0⟩
    [mkResidue C0 ⟨0, 0, 0⟩ 0 'C' 0] rfl
  simpa using h

lemma connect_WF (C : Consts) (s : Vec3) (p q : Residue) (w : World)
    (hw : WF w) (hp : hasResidueId w p.id) (hq : hasResidueId w q.id) :
    WF (connect C s p q w) := by
  obtain ⟨h1, h2, h3, h4⟩ := hw
  simp only [WF, connect, hasSocketId, hasResidueId, hasBallId,
    List.mem_append, List.mem_singleton] at h1 h2 h3 h4 ⊢
  refine ⟨?_, ?_, ?_, ?_⟩
  · rintro b (hb | rfl)
    · obtain ⟨⟨s1, hs1, he1⟩, ⟨s2, hs2, he2⟩⟩ := h1 b hb
      exact ⟨⟨s1, Or.inl (Or.inl hs1), he1⟩, ⟨s2, Or.inl (Or.inl hs2), he2⟩⟩
    · constructor
      · exact ⟨_, Or.inl (Or.inr rfl), rfl⟩
      · exact ⟨_, Or.inr rfl, rfl⟩
  · rintro sk ((hs | rfl) | rfl)
    · exact h2 sk hs
    · exact hp
    · exact hq
  · rintro b (hb | rfl)
    · obtain ⟨b1, hb1, he⟩ := h3 b hb
      exact ⟨b1, Or.inl hb1, he⟩
    · exact ⟨_, Or.inr rfl, rfl⟩
  · exact h4

lemma stepWorld_hasResidueId (C : Consts) (s : Vec3) (i : Nat) (c : Char)
    (w : World) (n : Nat) (h : hasResidueId w n) :
    hasResidueId (stepWorld C s i c w) n := by
  obtain ⟨r, hr, he⟩ := h
  exact ⟨r, by simp [stepWorld, hr], he⟩

lemma stepWorld_new_residue (C : Consts) (s : Vec3) (i : Nat) (c : Char) (w : World) :
    hasResidueId (stepWorld C s i c w) (mkResidue C s i c w.nextId).id :=
  ⟨mkResidue C s i c w.nextId, by simp [stepWorld], rfl⟩

lemma connect_hasResidueId (C : Consts) (s : Vec3) (p q : Residue) (w : World)
    (n : Nat) (h : hasResidueId w n) : hasResidueId (connect C s p q w) n := by
  obtain ⟨r, hr, he⟩ := h
  exact ⟨r, by simp [connect, hr], he⟩

lemma stepWorld_WF (C : Consts) (s : Vec3) (i : Nat) (c : Char) (w : World)
    (hw : WF w) : WF (stepWorld C s i c w) := by
  obtain ⟨h1, h2, h3, h4⟩ := hw
  refine ⟨?_, ?_, ?_, ?_⟩
  · intro b hb
    obtain ⟨⟨s1, hs1, he1⟩, ⟨s2, hs2, he2⟩⟩ := h1 b hb
    exact ⟨⟨s1, hs1, he1⟩, ⟨s2, hs2, he2⟩⟩
  · intro sk hs
    exact stepWorld_hasResidueId C s i c w _ (h2 sk hs)
  · exact h3
  · intro pp hpp r hr
    exact stepWorld_hasResidueId C s i c w _ (h4 pp hpp r hr)

lemma buildLoop_WF (C : Consts) (s : Vec3) (cs : List Char) :
    ∀ (i : Nat) (prev : Option Residue) (w : World) (pep : List Residue),
      WF w →
      (∀ p, prev = some p → hasResidueId w p.id) →
      (∀ r ∈ pep, hasResidueId w r.id) →
      WF (buildLoop C s cs i prev (w, pep)).1 ∧
        ∀ r ∈ (buildLoop C s cs i prev (w, pep)).2,
          hasResidueId (buildLoop C s cs i prev (w, pep)).1 r.id := by
  induction cs with
  | nil =>
      intro i prev w pep hw _ hpep
      exact ⟨hw, hpep⟩
  | cons c cs ih =>
      intro i prev w pep hw hprev hpep
      cases prev with
      | none =>
          rw [buildLoop_cons_none]
          apply ih
          · exact stepWorld_WF C s i c w hw
          · rintro p hp
            obtain rfl : mkResidue C s i c w.nextId = p := Option.some.inj hp
            exact stepWorld_new_residue C s i c w
          · intro r hr
            rcases List.mem_append.mp hr with h | h
            · exact stepWorld_hasResidueId C s i c w _ (hpep r h)
            · obtain rfl : r = mkResidue C s i c w.nextId := List.mem_singleton.mp h
              exact stepWorld_new_residue C s i c w
      | some p =>
          rw [buildLoop_cons_some]
          apply ih
          · refine connect_WF C s p (mkResidue C s i c w.nextId) _
              (stepWorld_WF C s i c w hw) ?_ ?_
            · exact stepWorld_hasResidueId C s i c w _ (hprev p rfl)
            · exact stepWorld_new_residue C s i c w
          · rintro p1 hp1
            obtain rfl : mkResidue C s i c w.nextId = p1 := Option.some.inj hp1
            exact connect_hasResidueId C s p _ _ _
              (stepWorld_new_residue C s i c w)
          · intro r hr
            rcases List.mem_append.mp hr with h | h
            · exact connect_hasResidueId C s p _ _ _
                (stepWorld_hasResidueId C s i c w _ (hpep r h))
            · obtain rfl : r = mkResidue C s i c w.nextId := List.mem_singleton.mp h
              exact connect_hasResidueId C s p _ _ _
                (stepWorld_new_residue C s i c w)

lemma addPeptide_WF (C : Consts) (w : World) (name : Str) (seq : List Char)
    (start : Vec3) (hw : WF w) : WF (addPeptide C w name seq start) := by
  obtain ⟨hwf, hpep⟩ := buildLoop_WF C start seq 0 none w [] hw
    (by intro p hp; cases hp) (by intro r hr; cases hr)
  obtain ⟨h1, h2, h3, h4⟩ := hwf
  simp only [addPeptide]
  refine ⟨?_, ?_, ?_, ?_⟩
  · intro b hb
    exact h1 b hb
  · intro sk hs
    exact h2 sk hs
  · intro b hb
    exact h3 b hb
  · intro pp hpp r hr
    rcases mem_mapSet _ _ _ _ hpp with h | h
    · subst h
      exact hpep r hr
    · exact h4 pp h r hr

lemma createCrossLink_WF (C : Consts) (w : World) (r1 r2 : Residue)
    (hw : WF w) (h1r : hasResidueId w r1.id) (h2r : hasResidueId w r2.id) :
    WF (createCrossLink C w r1 r2) := by
  obtain ⟨h1, h2, h3, h4⟩ := hw
  simp only [WF, createCrossLink, hasSocketId, hasResidueId, hasBallId,
    List.mem_append, List.mem_singleton] at h1 h2 h3 h4 ⊢
  refine ⟨?_, ?_, ?_, ?_⟩
  · rintro b (hb | rfl)
    · obtain ⟨⟨s1, hs1, he1⟩, ⟨s2, hs2, he2⟩⟩ := h1 b hb
      exact ⟨⟨s1, Or.inl (Or.inl hs1), he1⟩, ⟨s2, Or.inl (Or.inl hs2), he2⟩⟩
    · exact ⟨⟨_, Or.inl (Or.inr rfl), rfl⟩, ⟨_, Or.inr rfl, rfl⟩⟩
  · rintro sk ((hs | rfl) | rfl)
    · exact h2 sk hs
    · exact h1r
    · exact h2r
  · rintro b (hb | rfl)
    · obtain ⟨b1, hb1, he⟩ := h3 b hb
      exact ⟨b1, Or.inl hb1, he⟩
    · exact ⟨_, Or.inr rfl, rfl⟩
  · exact h4

lemma resolveEndpoint_residue (w : World) (chain : Str) (num : Nat) (r : Residue)
    (h : resolveEndpoint w chain num = some r) (hw : WF w) : hasResidueId w r.id := by
  unfold resolveEndpoint at h
  cases hm : mapGet w.peptides chain with
  | none => rw [hm] at h; simp at h
  | some pep =>
      rw [hm] at h
      simp only [Option.some_bind] at h
      unfold jsIndex at h
      split at h
      · have hmem : r ∈ pep := List.get?_mem h
        exact hw.2.2.2 (chain, pep) (mapGet_mem _ _ _ hm) r hmem
      · simp at h

lemma endpointResolve_residue (w : World) (ep : Str) (r : Residue)
    (h : endpointResolve w ep = Except.ok (some r)) (hw : WF w) :
    hasResidueId w r.id := by
  unfold endpointResolve at h
  split at h
  · simp at h
  · split at h
    · simp at h
    · split at h
      · split at h
        · obtain rfl : _ = r := Option.some.inj (Except.ok.inj h)
          exact resolveEndpoint_residue w _ _ _ (by assumption) hw
        · simp at h
      · simp at h

lemma exceptState_ok (w : World) : exceptState (Except.ok w) = w := rfl

lemma processClause_WF (C : Consts) (w : World) (cl : Str) (hw : WF w) :
    WF (exceptState (processClause C w cl)) := by
  simp only [processClause]
  split
  · simpa [exceptState] using hw
  · simpa [exceptState] using hw
  · split
    · simpa [exceptState] using hw
    · split
      · simpa [exceptState] using hw
      · simpa [exceptState] using hw
      · rw [exceptState_ok]
        exact createCrossLink_WF C w _ _ hw
          (endpointResolve_residue w _ _ (by assumption) hw)
          (endpointResolve_residue w _ _ (by assumption) hw)

lemma addCrossLinksFold_WF (C : Consts) (cls : List Str) :
    ∀ w : World, WF w → WF (exceptState (addCrossLinksFold C w cls)) := by
  induction cls with
  | nil =>
      intro w hw
      simpa [addCrossLinksFold, exceptState] using hw
  | cons cl cls ih =>
      intro w hw
      have hstep := processClause_WF C w cl hw
      simp only [addCrossLinksFold]
      cases h : processClause C w cl with
      | ok w1 =>
          rw [h] at hstep
          exact ih w1 (by simpa [exceptState] using hstep)
      | error w1 =>
          rw [h] at hstep
          simpa [exceptState] using hstep

/-- Claim C7: starting from a state in which every ball references existing
sockets, every socket an existing residue, every internal-list ball a
registered ball and every registered chain only registered residues, both
addPeptide and addCrossLinks preserve all of it, whether or not an
exception escapes the latter: no primitive with a dangling reference is
ever registered. -/
theorem c7_reference_integrity (C : Consts) (w : World) (name : Str)
    (seq : List Char) (start : Vec3) (spec : Str) (hw : WF w) :
    WF (addPeptide C w name seq start) ∧
      WF (exceptState (addCrossLinks C w spec)) :=
  ⟨addPeptide_WF C w name seq start hw,
    addCrossLinksFold_WF C (splitOnChar ';' spec) w hw⟩

/-- Witness for c7_reference_integrity at a concrete world, chain and
cross-link specification. -/
theorem c7_reference_integrity_witness :
    WF w7base ∧
      WF (addPeptide C0 w7base ['B'] ['G', 'G'] ⟨0, 10, 0⟩) ∧
      WF (exceptState (addCrossLinks C0 w7base
        ['A', ':', 'C', '1', '-', 'A', ':', 'D', '2'])) := by
  have h := c7_reference_integrity C0 w7base ['B'] ['G', 'G'] ⟨0, 10, 0⟩
    ['A', ':', 'C', '1', '-', 'A', ':', 'D', '2'] (by decide)
  exact ⟨by decide, h.1, h.2⟩

/-- Claim C1: processing the clause A:X5-B:Y3 never throws, creates exactly
one ball and two sockets (the ball also appended to the internal list,
nothing else changed) iff chain A has a residue at 1-based index 5 with
symbol X and chain B a residue at 1-based index 3 with symbol Y, and
otherwise returns the state unchanged. -/
theorem c1_crosslink_clause (C : Consts) (w : World) :
    addCrossLinks C w c1Clause = Except.ok (c1Outcome C w) ∧
    (∀ r1 r2 : Residue,
      (createCrossLink C w r1 r2).regSockets.length = w.regSockets.length + 2 ∧
      (createCrossLink C w r1 r2).regBalls.length = w.regBalls.length + 1 ∧
      (createCrossLink C w r1 r2).balls.length = w.balls.length + 1 ∧
      (createCrossLink C w r1 r2).regResidues = w.regResidues ∧
      (createCrossLink C w r1 r2).peptides = w.peptides) ∧
    ((∃ r1 r2, resolveEndpoint w ['A'] 5 = some r1 ∧ r1.name = ['X'] ∧
        resolveEndpoint w ['B'] 3 = some r2 ∧ r2.name = ['Y']) →
      ∃ r1 r2, c1Outcome C w = createCrossLink C w r1 r2) ∧
    ((¬ ∃ r1 r2, resolveEndpoint w ['A'] 5 = some r1 ∧ r1.name = ['X'] ∧
        resolveEndpoint w ['B'] 3 = some r2 ∧ r2.name = ['Y']) →
      c1Outcome C w = w) := by
  have hep1 : endpointResolve w ['A', ':', 'X', '5']
      = match resolveEndpoint w ['A'] 5 with
        | some r => if r.name = ['X'] then Except.ok (some r) else Except.ok none
        | none => Except.ok none := rfl
  have hep2 : endpointResolve w ['B', ':', 'Y', '3']
      = match resolveEndpoint w ['B'] 3 with
        | some r => if r.name = ['Y'] then Except.ok (some r) else Except.ok none
        | none => Except.ok none := rfl
  have hpc : processClause C w c1Clause
      = match endpointResolve w ['A', ':', 'X', '5'] with
        | Except.error _ => Except.error w
        | Except.ok none => Except.ok w
        | Except.ok (some r1) =>
            match endpointResolve w ['B', ':', 'Y', '3'] with
            | Except.error _ => Except.error w
            | Except.ok none => Except.ok w
            | Except.ok (some r2) => Except.ok (createCrossLink C w r1 r2) := rfl
  refine ⟨?_, ?_, ?_, ?_⟩
  · have hstep : addCrossLinks C w c1Clause = addCrossLinksFold C w [c1Clause] := rfl
    have hfold : addCrossLinksFold C w [c1Clause]
        = match processClause C w c1Clause with
          | Except.ok w1 => Except.ok w1
          | Except.error w1 => Except.error w1 := by
      cases h : processClause C w c1Clause <;> simp [addCrossLinksFold, h]
    rw [hstep, hfold, hpc, hep1, hep2]
    unfold c1Outcome
    cases h1 : resolveEndpoint w ['A'] 5 with
    | none => rfl
    | some r1 =>
        by_cases hx : r1.name = ['X']
        · cases h2 : resolveEndpoint w ['B'] 3 with
          | none => simp [hx]
          | some r2 =>
              by_cases hy : r2.name = ['Y']
              · simp [hx, hy]
              · simp [hx, hy]
        · simp [hx]
  · intro r1 r2
    refine ⟨?_, ?_, ?_, ?_, ?_⟩ <;> simp [createCrossLink]
  · rintro ⟨r1, r2, hr1, hx, hr2, hy⟩
    refine ⟨r1, r2, ?_⟩
    unfold c1Outcome
    simp [hr1, hx, hr2, hy]
  · intro hn
    unfold c1Outcome
    cases h1 : resolveEndpoint w ['A'] 5 with
    | none => rfl
    | some r1 =>
        by_cases hx : r1.name = ['X']
        · cases h2 : resolveEndpoint w ['B'] 3 with
          | none => simp [hx]
          | some r2 =>
              by_cases hy : r2.name = ['Y']
              · exact absurd ⟨r1, r2, h1, hx, h2, hy⟩ hn
              · simp [hx, hy]
        · simp [hx]

/-- Witness for c1_crosslink_clause: on c1World the clause resolves and the
outcome is a created cross-link. -/
theorem c1_crosslink_clause_witness :
    addCrossLinks C0 c1World c1Clause = Except.ok (c1Outcome C0 c1World) ∧
    ∃ r1 r2, c1Outcome C0 c1World = createCrossLink C0 c1World r1 r2 := by
  obtain ⟨h1, _, h3, _⟩ := c1_crosslink_clause C0 c1World
  exact ⟨h1, h3 ⟨_, _, rfl, rfl, rfl, rfl⟩⟩

/-- Counterexample to claim C2: over w2base, the clause X (no second
endpoint, no digit run) throws, so the specification X;A:C1-A:D2 ends in an
escaping exception with the ball count still 1, although the very same
later clause on its own creates its joint (ball count 2): an invalid clause
does abort the processing of the remaining clauses. -/
theorem c2_counterexample :
    addCrossLinks C0 w2base c2BadSpec = Except.error w2base ∧
    w2base.regBalls.length = 1 ∧
    (okState (addCrossLinks C0 w2base c2GoodClause)).map (fun w => w.regBalls.length)
        = some 2 :=
  ⟨rfl, rfl, rfl⟩

/-- Claim C2 as amended: a clause that fails validation (either endpoint
resolving to no residue or to a residue of the wrong symbol) is skipped
without affecting the remaining clauses, so a later valid clause still
creates its joint; but a clause that fails to parse throws, aborting the
remaining clauses, in each of the three shapes this can take: a first
endpoint with no token or no digit run, a validated first endpoint with no
second endpoint to split off, and a validated first endpoint whose second
endpoint has no token or no digit run. -/
theorem c2_clause_independence (C : Consts) (w : World) (cl : Str)
    (rest : List Str) :
    (endpointResolve w ((splitOnChar '-' cl).headD []) = Except.ok none →
        addCrossLinksFold C w (cl :: rest) = addCrossLinksFold C w rest) ∧
    (∀ r1 ep2,
        endpointResolve w ((splitOnChar '-' cl).headD []) = Except.ok (some r1) →
        (splitOnChar '-' cl).get? 1 = some ep2 →
        endpointResolve w ep2 = Except.ok none →
        addCrossLinksFold C w (cl :: rest) = addCrossLinksFold C w rest) ∧
    (endpointResolve w ((splitOnChar '-' cl).headD []) = Except.error () →
        addCrossLinksFold C w (cl :: rest) = Except.error w) ∧
    (∀ r1,
        endpointResolve w ((splitOnChar '-' cl).headD []) = Except.ok (some r1) →
        (splitOnChar '-' cl).get? 1 = none →
        addCrossLinksFold C w (cl :: rest) = Except.error w) ∧
    (∀ r1 ep2,
        endpointResolve w ((splitOnChar '-' cl).headD []) = Except.ok (some r1) →
        (splitOnChar '-' cl).get? 1 = some ep2 →
        endpointResolve w ep2 = Except.error () →
        addCrossLinksFold C w (cl :: rest) = Except.error w) := by
  refine ⟨?_, ?_, ?_, ?_, ?_⟩
  · intro h
    simp only [addCrossLinksFold, processClause, h]
  · intro r1 ep2 h1 h2 h3
    simp only [addCrossLinksFold, processClause, h1, h2, h3]
  · intro h
    simp only [addCrossLinksFold, processClause, h]
  · intro r1 h1 h2
    simp only [addCrossLinksFold, processClause, h1, h2]
  · intro r1 ep2 h1 h2 h3
    simp only [addCrossLinksFold, processClause, h1, h2, h3]

/-- Witness for c2_clause_independence: over w2base the clause Q:C1-Q:C1
misses validation and is skipped, leaving the rest of the specification to
proceed exactly as without it. -/
theorem c2_clause_independence_witness :
    addCrossLinksFold C0 w2base [c2SkipClause, c2GoodClause]
      = addCrossLinksFold C0 w2base [c2GoodClause] :=
  (c2_clause_independence C0 w2base c2SkipClause [c2GoodClause]).1 rfl

/-- Claim C5 evaluated on the code: the clause A:C1-B:1, whose second token
omits the symbol, is silently skipped (the call returns the state
unchanged, zero primitives created), even though the same endpoint written
with its symbol, A:C1-B:G1, creates the joint.  The symbol comparison is
not skipped for a pure-digit token: the empty alphabetic prefix is compared
against the residue name and never matches it. -/
theorem c5_digit_token_clause_skipped :
    addCrossLinks C0 w5base c5DigitClause = Except.ok w5base ∧
    w5base.regBalls.length = 0 ∧
    (okState (addCrossLinks C0 w5base c5SymbolClause)).map
        (fun w => w.regBalls.length) = some 1 ∧
    getAlphaOnly ['1'] = [] :=
  ⟨rfl, rfl, rfl, rfl⟩

/-- Claim C10: addCrossLinks on the empty string is not a no-op success:
the single empty clause has no token after a colon, so the call throws,
leaving the state unchanged and creating nothing. -/
theorem c10_empty_spec_throws (C : Consts) (w : World) :
    addCrossLinks C w [] = Except.error w := rfl

/-- Claim C6: the inter-residue connection synthesized by addPeptide
between a previous and a current residue (the latter laid out
2*(socketLength+residueRadius+ballRadius) further along x, as addPeptide
always does) registers exactly two sockets, anchored to the previous and
the current residue, and one ball joining exactly those two sockets, with
the ball's x-coordinate the mean of the two residue x-coordinates and the
two sockets' x-coordinates equidistant from it. -/
theorem c6_connection_symmetric (C : Consts) (w : World) (start : Vec3)
    (prev cur : Residue)
    (hspace : cur.pos.x
      = prev.pos.x + (C.socketLength + C.residueRadius + C.ballRadius) * 2) :
    ∃ s1 s2 b,
      (connect C start prev cur w).regSockets = w.regSockets ++ [s1, s2] ∧
      (connect C start prev cur w).regBalls = w.regBalls ++ [b] ∧
      (connect C start prev cur w).balls = w.balls ++ [b] ∧
      b.socket1Id = s1.id ∧ b.socket2Id = s2.id ∧
      s1.residueId = prev.id ∧ s2.residueId = cur.id ∧
      b.matrix.pos.x = (prev.pos.x + cur.pos.x) / 2 ∧
      b.matrix.pos.x - s1.matrix.pos.x = s2.matrix.pos.x - b.matrix.pos.x := by
  refine ⟨⟨w.nextId, prev.id, C.socketRadius, C.socketLength,
      ⟨{ start with x := prev.pos.x + C.residueRadius + C.socketLength / 2 },
        true⟩, false⟩,
    ⟨w.nextId + 1, cur.id, C.socketRadius, C.socketLength,
      ⟨{ start with x := prev.pos.x + C.residueRadius + C.socketLength / 2
          + C.socketLength + C.ballRadius * 2 }, true⟩, false⟩,
    ⟨w.nextId + 2, w.nextId, w.nextId + 1, C.ballRadius,
      ⟨{ start with x := prev.pos.x + C.residueRadius + C.socketLength / 2
          + C.socketLength / 2 + C.ballRadius }, false⟩⟩,
    ?_, rfl, rfl, rfl, rfl, rfl, rfl, ?_, ?_⟩
  · simp [connect]
  · show prev.pos.x + C.residueRadius + C.socketLength / 2
        + C.socketLength / 2 + C.ballRadius = (prev.pos.x + cur.pos.x) / 2
    rw [hspace]
    ring
  · show prev.pos.x + C.residueRadius + C.socketLength / 2 + C.socketLength / 2
          + C.ballRadius
        - (prev.pos.x + C.residueRadius + C.socketLength / 2)
      = prev.pos.x + C.residueRadius + C.socketLength / 2 + C.socketLength
          + C.ballRadius * 2
        - (prev.pos.x + C.residueRadius + C.socketLength / 2 + C.socketLength / 2
          + C.ballRadius)
    ring

/-- Witness for c6_connection_symmetric at concrete residues spaced by
2*(1+1+1) = 6 under the concrete constants. -/
theorem c6_connection_symmetric_witness :
    ∃ s1 s2 b,
      (connect C0 ⟨0, 0, 0⟩ ⟨0, ['C'], 1, ⟨0, 0, 0⟩⟩ ⟨1, ['D'], 1, ⟨6, 0, 0⟩⟩
          initWorld).regSockets
        = initWorld.regSockets ++ [s1, s2] ∧
      (connect C0 ⟨0, 0, 0⟩ ⟨0, ['C'], 1, ⟨0, 0, 0⟩⟩ ⟨1, ['D'], 1, ⟨6, 0, 0⟩⟩
          initWorld).regBalls
        = initWorld.regBalls ++ [b] ∧
      (connect C0 ⟨0, 0, 0⟩ ⟨0, ['C'], 1, ⟨0, 0, 0⟩⟩ ⟨1, ['D'], 1, ⟨6, 0, 0⟩⟩
          initWorld).balls
        = initWorld.balls ++ [b] ∧
      b.socket1Id = s1.id ∧ b.socket2Id = s2.id ∧
      s1.residueId = (⟨0, ['C'], 1, ⟨0, 0, 0⟩⟩ : Residue).id ∧
      s2.residueId = (⟨1, ['D'], 1, ⟨6, 0, 0⟩⟩ : Residue).id ∧
      b.matrix.pos.x = ((⟨0, ['C'], 1, ⟨0, 0, 0⟩⟩ : Residue).pos.x
        + (⟨1, ['D'], 1, ⟨6, 0, 0⟩⟩ : Residue).pos.x) / 2 ∧
      b.matrix.pos.x - s1.matrix.pos.x = s2.matrix.pos.x - b.matrix.pos.x :=
  c6_connection_symmetric C0 initWorld ⟨0, 0, 0⟩ ⟨0, ['C'], 1, ⟨0, 0, 0⟩⟩
    ⟨1, ['D'], 1, ⟨6, 0, 0⟩⟩ (by norm_num [C0])

end XLink
